import Mathlib

/-!
Shallow embedding of the connection/channel lifecycle and recovery engine of
the `use-rabbitmq` package (`src/use_rabbitmq/__init__.py`, with the older
duplicate in `src/usepy_plugin_rabbitmq/__init__.py`).

The embedding models, straight from the Python source:
  * the class constants of `RabbitMQStore`;
  * the exponential-backoff retry loop of `RabbitMQStore._create_connection`;
  * `RabbitMQStore.send` with its bounded retry counter;
  * `ChannelManager._acquire_channel` / `_release_channel` / `get_channel`;
  * the consume loop `RabbitMQStore.start_consuming`;
  * `RabbitMQStore.shutdown`, the `connection` property and the `channel`
    deleter, over an explicit store-state record;
  * `ConnectionPool.get_connection` and `ConnectionPool._get_pool_key`.

External effects (sockets, sleeping, logging) are represented by oracles:
a trace of per-attempt or per-iteration outcomes supplied as an argument,
and lists of slept delays returned as data.
-/

namespace UseRabbitMQ

/-! ## Class constants of `RabbitMQStore` -/

/-- `RabbitMQStore.MAX_SEND_ATTEMPTS = 6`. -/
def MAX_SEND_ATTEMPTS : Nat := 6

/-- `RabbitMQStore.MAX_CONNECTION_DELAY = 2 ** 5`. -/
def MAX_CONNECTION_DELAY : Nat := 2 ^ 5

/-- `RabbitMQStore.RECONNECTION_DELAY = 1`. -/
def RECONNECTION_DELAY : Nat := 1

/-! ## Backoff of `RabbitMQStore._create_connection`

The direct-creation loop keeps a local `reconnection_delay`, initialised to
`RECONNECTION_DELAY`; after each failed `amqpstorm.Connection(...)` attempt it
sleeps `reconnection_delay` seconds and then sets
`reconnection_delay = min(reconnection_delay * 2, MAX_CONNECTION_DELAY)`.
`sleepsFrom d n` is the list of delays slept when the next `n` attempts all
raise `AMQPConnectionError`, starting from local delay value `d`. -/

def sleepsFrom (d : Nat) : Nat → List Nat
  | 0 => []
  | n + 1 => d :: sleepsFrom (min (d * 2) MAX_CONNECTION_DELAY) n

/-- Delays slept by one invocation of the direct-creation loop of
`_create_connection` whose first `failures` attempts raise
`AMQPConnectionError`.  Each fresh invocation starts over from
`RECONNECTION_DELAY`, so the list depends on `failures` alone. -/
def createConnectionSleeps (failures : Nat) : List Nat :=
  sleepsFrom RECONNECTION_DELAY failures

/-- In a run of the loop whose local delay currently holds
`min (2 ^ k) MAX_CONNECTION_DELAY`, the `i`-th slept delay (0-based) is
`min (2 ^ (k + i)) MAX_CONNECTION_DELAY`. -/
theorem sleepsFrom_get :
    ∀ (n i k : Nat), i < n →
      (sleepsFrom (min (2 ^ k) MAX_CONNECTION_DELAY) n)[i]? =
        some (min (2 ^ (k + i)) MAX_CONNECTION_DELAY) := by
  intro n
  induction n with
  | zero => intro i k h; exact absurd h (Nat.not_lt_zero i)
  | succ m ih =>
    intro i k h
    cases i with
    | zero => simp [sleepsFrom]
    | succ j =>
      have hd : min (min (2 ^ k) MAX_CONNECTION_DELAY * 2) MAX_CONNECTION_DELAY
          = min (2 ^ (k + 1)) MAX_CONNECTION_DELAY := by
        have h2 : 2 ^ (k + 1) = 2 ^ k * 2 := by rw [pow_succ]
        simp only [MAX_CONNECTION_DELAY] at *
        omega
      simp only [sleepsFrom, List.getElem?_cons_succ, hd]
      have e : k + (j + 1) = k + 1 + j := by omega
      rw [e]
      exact ih j (k + 1) (by omega)

/-- C2: for every attempt number `n ≥ 1`, the delay slept after the `n`-th
failed connection-creation attempt of `RabbitMQStore._create_connection`
equals `min (RECONNECTION_DELAY * 2 ^ (n - 1)) MAX_CONNECTION_DELAY`, with
`RECONNECTION_DELAY = 1` and `MAX_CONNECTION_DELAY = 32`; the sequence
restarts from the base on each fresh invocation because
`createConnectionSleeps` initialises the local delay to `RECONNECTION_DELAY`
and depends on the failure count alone. -/
theorem createConnection_backoff (n failures : Nat) (h1 : 1 ≤ n) (hn : n ≤ failures) :
    (createConnectionSleeps failures)[n - 1]? =
      some (min (RECONNECTION_DELAY * 2 ^ (n - 1)) MAX_CONNECTION_DELAY) := by
  have h0 : min (2 ^ 0) MAX_CONNECTION_DELAY = RECONNECTION_DELAY := by decide
  have hget := sleepsFrom_get failures (n - 1) 0 (by omega)
  rw [h0] at hget
  rw [createConnectionSleeps, hget, Nat.zero_add]
  norm_num [RECONNECTION_DELAY]

/-- Witness for C2: the delay slept after the 3rd failed attempt, out of 5
failures, is `min (1 * 2 ^ 2) 32 = 4`. -/
theorem createConnection_backoff_witness :
    (createConnectionSleeps 5)[2]? =
      some (min (RECONNECTION_DELAY * 2 ^ 2) MAX_CONNECTION_DELAY) :=
  createConnection_backoff 3 5 (by decide) (by decide)

/-! ## `RabbitMQStore.send`

`send` runs `attempts = 1; while True:` — each iteration performs one
`basic.publish` (through `get_channel()` or the plain channel).  On success it
returns the message body unchanged.  On any exception it executes
`del self.connection`, increments `attempts`, raises the caught exception if
`attempts > MAX_SEND_ATTEMPTS`, and otherwise sleeps and retries.
The oracle maps an attempt number to `none` (the publish succeeded) or
`some excId` (the publish raised exception `excId`). -/

inductive SendOutcome where
  | sent (body : String)
  | raised (excId : Nat)
deriving DecidableEq

/-- Trace of one `send` call: its outcome, the number of publish attempts
performed, and the number of `del self.connection` invalidations executed. -/
structure SendTrace where
  outcome : SendOutcome
  publishCount : Nat
  connDelCount : Nat
deriving DecidableEq

/-- Body of the `while True` loop of `send`, entered with counter `attempts`
and accumulated counts `pubs`, `dels`. -/
def sendFrom (oracle : Nat → Option Nat) (body : String)
    (attempts pubs dels : Nat) : SendTrace :=
  match oracle attempts with
  | none => ⟨.sent body, pubs + 1, dels⟩
  | some e =>
      if _h : MAX_SEND_ATTEMPTS < attempts + 1 then ⟨.raised e, pubs + 1, dels + 1⟩
      else sendFrom oracle body (attempts + 1) (pubs + 1) (dels + 1)
termination_by MAX_SEND_ATTEMPTS - attempts
decreasing_by simp only [MAX_SEND_ATTEMPTS] at *; omega

/-- `RabbitMQStore.send`: the loop starts with `attempts = 1`. -/
def send (oracle : Nat → Option Nat) (body : String) : SendTrace :=
  sendFrom oracle body 1 0 0


theorem sendFrom_eq_none (oracle : Nat → Option Nat) (body : String)
    (a p d : Nat) (h : oracle a = none) :
    sendFrom oracle body a p d = ⟨.sent body, p + 1, d⟩ := by
  rw [sendFrom, h]

theorem sendFrom_eq_last (oracle : Nat → Option Nat) (body : String)
    (a p d e : Nat) (h : oracle a = some e) (hc : MAX_SEND_ATTEMPTS < a + 1) :
    sendFrom oracle body a p d = ⟨.raised e, p + 1, d + 1⟩ := by
  rw [sendFrom, h]
  simp [hc]

theorem sendFrom_eq_retry (oracle : Nat → Option Nat) (body : String)
    (a p d e : Nat) (h : oracle a = some e) (hc : ¬ MAX_SEND_ATTEMPTS < a + 1) :
    sendFrom oracle body a p d = sendFrom oracle body (a + 1) (p + 1) (d + 1) := by
  rw [sendFrom, h]
  simp [hc]

theorem sendFrom_publish_le (oracle : Nat → Option Nat) (body : String)
    (attempts pubs dels : Nat) :
    attempts ≤ MAX_SEND_ATTEMPTS →
    (sendFrom oracle body attempts pubs dels).publishCount
      ≤ pubs + (MAX_SEND_ATTEMPTS + 1 - attempts) := by
  induction attempts, pubs, dels using sendFrom.induct oracle body with
  | case1 a p d h =>
    intro ha
    rw [sendFrom_eq_none oracle body a p d h]
    show p + 1 ≤ p + (MAX_SEND_ATTEMPTS + 1 - a)
    simp only [MAX_SEND_ATTEMPTS] at *
    omega
  | case2 a p d e h hc =>
    intro ha
    rw [sendFrom_eq_last oracle body a p d e h hc]
    show p + 1 ≤ p + (MAX_SEND_ATTEMPTS + 1 - a)
    simp only [MAX_SEND_ATTEMPTS] at *
    omega
  | case3 a p d e h hc ih =>
    intro ha
    rw [sendFrom_eq_retry oracle body a p d e h hc]
    have hrec := ih (by simp only [MAX_SEND_ATTEMPTS] at *; omega)
    simp only [MAX_SEND_ATTEMPTS] at *
    omega

theorem sendFrom_all_fail (oracle : Nat → Option Nat) (body : String)
    (attempts pubs dels : Nat) :
    1 ≤ attempts → attempts ≤ MAX_SEND_ATTEMPTS →
    pubs + 1 = attempts → dels + 1 = attempts →
    (∀ k, attempts ≤ k → k ≤ MAX_SEND_ATTEMPTS → (oracle k).isSome) →
    (sendFrom oracle body attempts pubs dels) =
      ⟨.raised ((oracle MAX_SEND_ATTEMPTS).getD 0), MAX_SEND_ATTEMPTS,
        MAX_SEND_ATTEMPTS⟩ := by
  induction attempts, pubs, dels using sendFrom.induct oracle body with
  | case1 a p d h =>
    intro h1 h6 hp hd hall
    have hsome : (oracle a).isSome := hall a (le_refl a) h6
    rw [h] at hsome
    simp at hsome
  | case2 a p d e h hc =>
    intro h1 h6 hp hd hall
    have ha : a = MAX_SEND_ATTEMPTS := by
      simp only [MAX_SEND_ATTEMPTS] at *; omega
    subst ha
    rw [sendFrom_eq_last oracle body _ p d e h hc, h]
    simp only [Option.getD_some, SendTrace.mk.injEq, true_and]
    exact ⟨hp, hd⟩
  | case3 a p d e h hc ih =>
    intro h1 h6 hp hd hall
    rw [sendFrom_eq_retry oracle body a p d e h hc]
    have hle : a + 1 ≤ MAX_SEND_ATTEMPTS := by
      simp only [MAX_SEND_ATTEMPTS] at *; omega
    exact ih (by omega) hle (by omega) (by omega)
      (fun k hk1 hk2 => hall k (by omega) hk2)

theorem sendFrom_body_preserved (oracle : Nat → Option Nat) (body : String)
    (attempts pubs dels : Nat) :
    ∀ (b : String),
      (sendFrom oracle body attempts pubs dels).outcome = .sent b → b = body := by
  induction attempts, pubs, dels using sendFrom.induct oracle body with
  | case1 a p d h =>
    intro b hb
    rw [sendFrom_eq_none oracle body a p d h] at hb
    simp only [SendOutcome.sent.injEq] at hb
    exact hb.symm
  | case2 a p d e h hc =>
    intro b hb
    rw [sendFrom_eq_last oracle body a p d e h hc] at hb
    exact absurd hb (by simp)
  | case3 a p d e h hc ih =>
    intro b hb
    rw [sendFrom_eq_retry oracle body a p d e h hc] at hb
    exact ih b hb

/-- C4: `RabbitMQStore.send` (i) returns the message body unchanged whenever
a publish attempt succeeds; (ii) performs at most `MAX_SEND_ATTEMPTS = 6`
publish attempts; and (iii) when every attempt fails it performs exactly 6
publish attempts, executes `del self.connection` after each of them, and
raises the exception of the last (6th) attempt. -/
theorem send_spec (oracle : Nat → Option Nat) (body : String) :
    (∀ b, (send oracle body).outcome = .sent b → b = body) ∧
    (send oracle body).publishCount ≤ MAX_SEND_ATTEMPTS ∧
    ((∀ k, 1 ≤ k → k ≤ MAX_SEND_ATTEMPTS → (oracle k).isSome) →
      send oracle body =
        ⟨.raised ((oracle MAX_SEND_ATTEMPTS).getD 0), MAX_SEND_ATTEMPTS,
          MAX_SEND_ATTEMPTS⟩) := by
  refine ⟨fun b h => sendFrom_body_preserved oracle body 1 0 0 b h, ?_, ?_⟩
  · have := sendFrom_publish_le oracle body 1 0 0 (by decide)
    simp only [send, MAX_SEND_ATTEMPTS] at *
    omega
  · intro hall
    exact sendFrom_all_fail oracle body 1 0 0 (by decide) (by decide) rfl rfl hall

/-- Witness for C4: with every publish raising exception `9`, `send` performs
exactly 6 publish attempts, 6 connection invalidations, and raises `9`. -/
theorem send_spec_witness :
    send (fun _ => some 9) "m" = ⟨.raised 9, 6, 6⟩ ∧
    (send (fun _ => some 9) "m").publishCount ≤ MAX_SEND_ATTEMPTS := by
  have h := send_spec (fun _ => some 9) "m"
  exact ⟨h.2.2 (fun k _ _ => rfl), h.2.1⟩

/-! ## `ChannelManager`

`ChannelManager` keeps a FIFO `Queue` of idle channels and a counter
`_channel_count` of channels created and not yet discarded.  A channel is
represented here by its `is_open` flag; the idle queue is a list with the
queue front first.  `_channel_count` is modelled as `Int` because the Python
counter is decremented unconditionally on some paths. -/

structure CMState where
  idle : List Bool
  count : Int
  maxChannels : Nat
deriving DecidableEq

/-- Fresh `ChannelManager(connection, max_channels)`. -/
def CMState.init (maxChannels : Nat) : CMState := ⟨[], 0, maxChannels⟩

inductive AcquireResult where
  | gotReused
  | gotNew
  | connClosedErr
  | capacityErr
deriving DecidableEq

/-- Pop loop of `ChannelManager._acquire_channel`: pop idle channels from the
queue front, decrementing `_channel_count` for each closed one, until an open
channel is found (returned) or the queue is empty; then, if `_channel_count <
max_channels`, create a new channel (raising `AMQPConnectionError` when the
connection is closed), else raise the `RuntimeError` capacity error. -/
def acquireLoop (connOpen : Bool) (m : Nat) :
    List Bool → Int → AcquireResult × CMState
  | [], count =>
      if count < (m : Int) then
        if connOpen then (.gotNew, ⟨[], count + 1, m⟩)
        else (.connClosedErr, ⟨[], count, m⟩)
      else (.capacityErr, ⟨[], count, m⟩)
  | b :: rest, count =>
      if b then (.gotReused, ⟨rest, count, m⟩)
      else acquireLoop connOpen m rest (count - 1)

/-- `ChannelManager._acquire_channel` on the manager state `s`. -/
def acquireChannel (connOpen : Bool) (s : CMState) : AcquireResult × CMState :=
  acquireLoop connOpen s.maxChannels s.idle s.count

/-- `ChannelManager._release_channel`: a closed channel just decrements
`_channel_count`; an open channel is put back on the idle queue when
`qsize < max_channels`, and otherwise closed (close-time errors are caught
and logged in the source, so release never raises) with the count
decremented. -/
def releaseChannel (chOpen : Bool) (s : CMState) : CMState :=
  if !chOpen then { s with count := s.count - 1 }
  else if s.idle.length < s.maxChannels then { s with idle := s.idle ++ [true] }
  else { s with count := s.count - 1 }

/-- Events driving a `ChannelManager`: acquisitions (with the connection
liveness observed at creation time), releases (with the released channel's
open flag), and a channel dying while sitting in the idle queue. -/
inductive CMEvent where
  | acquire (connOpen : Bool)
  | release (chOpen : Bool)
  | idleDies (i : Nat)
deriving DecidableEq

def cmStep (s : CMState) : CMEvent → CMState
  | .acquire connOpen => (acquireChannel connOpen s).2
  | .release chOpen => releaseChannel chOpen s
  | .idleDies i => { s with idle := s.idle.set i false }

def cmRun (s : CMState) : List CMEvent → CMState
  | [] => s
  | e :: rest => cmRun (cmStep s e) rest

theorem acquireLoop_count_le (connOpen : Bool) (m : Nat) :
    ∀ (idle : List Bool) (count : Int), count ≤ (m : Int) →
      (acquireLoop connOpen m idle count).2.count ≤ (m : Int) := by
  intro idle
  induction idle with
  | nil =>
    intro count h
    by_cases hc : count < (m : Int)
    · by_cases ho : connOpen = true
      · simp [acquireLoop, hc, ho]; omega
      · simp [acquireLoop, hc, eq_false_of_ne_true ho]; omega
    · simp [acquireLoop, hc]; omega
  | cons b rest ih =>
    intro count h
    by_cases hb : b = true
    · simp [acquireLoop, hb]; omega
    · simp only [acquireLoop, eq_false_of_ne_true hb, if_false]
      exact ih (count - 1) (by omega)

theorem acquireLoop_maxChannels (connOpen : Bool) (m : Nat) :
    ∀ (idle : List Bool) (count : Int),
      (acquireLoop connOpen m idle count).2.maxChannels = m := by
  intro idle
  induction idle with
  | nil =>
    intro count
    by_cases hc : count < (m : Int)
    · by_cases ho : connOpen = true
      · simp [acquireLoop, hc, ho]
      · simp [acquireLoop, hc, eq_false_of_ne_true ho]
    · simp [acquireLoop, hc]
  | cons b rest ih =>
    intro count
    by_cases hb : b = true
    · simp [acquireLoop, hb]
    · simp only [acquireLoop, eq_false_of_ne_true hb, if_false]
      exact ih (count - 1)

theorem cmStep_count_le (s : CMState) (e : CMEvent)
    (h : s.count ≤ (s.maxChannels : Int)) :
    (cmStep s e).count ≤ (s.maxChannels : Int) ∧
    (cmStep s e).maxChannels = s.maxChannels := by
  cases e with
  | acquire connOpen =>
    exact ⟨acquireLoop_count_le connOpen s.maxChannels s.idle s.count h,
      acquireLoop_maxChannels connOpen s.maxChannels s.idle s.count⟩
  | release chOpen =>
    unfold cmStep releaseChannel
    by_cases hc : chOpen = true
    · by_cases hq : s.idle.length < s.maxChannels
      · simp [hc, hq]; omega
      · simp [hc, hq]; omega
    · simp [eq_false_of_ne_true hc]; omega
  | idleDies i =>
    unfold cmStep
    exact ⟨h, rfl⟩

theorem cmRun_count_le :
    ∀ (evs : List CMEvent) (s : CMState), s.count ≤ (s.maxChannels : Int) →
      (cmRun s evs).count ≤ ((cmRun s evs).maxChannels : Int) ∧
      (cmRun s evs).maxChannels = s.maxChannels := by
  intro evs
  induction evs with
  | nil => intro s h; exact ⟨h, rfl⟩
  | cons e rest ih =>
    intro s h
    have hstep := cmStep_count_le s e h
    have := ih (cmStep s e) (hstep.2 ▸ hstep.1)
    rw [cmRun]
    exact ⟨this.1, this.2.trans hstep.2⟩

/-- C5: under any sequence of `ChannelManager` operations starting from a
fresh manager, `_channel_count` never exceeds `max_channels`; and an
`_acquire_channel` performed while `max_channels` channels are outstanding
and the idle queue is empty raises the `RuntimeError` capacity error,
leaving the state untouched. -/
theorem channelManager_capacity (maxChannels : Nat) (evs : List CMEvent)
    (s : CMState) (connOpen : Bool)
    (hidle : s.idle = []) (hfull : s.count = (s.maxChannels : Int)) :
    (cmRun (CMState.init maxChannels) evs).count ≤ (maxChannels : Int) ∧
    acquireChannel connOpen s = (.capacityErr, s) := by
  constructor
  · have := cmRun_count_le evs (CMState.init maxChannels) (by simp [CMState.init])
    rw [this.2] at this
    exact this.1
  · obtain ⟨idle, count, m⟩ := s
    simp only at hidle hfull
    subst hidle
    subst hfull
    simp [acquireChannel, acquireLoop]

/-- Witness for C5: after two successful acquisitions on a manager with
`max_channels = 2`, the count is at capacity and a further acquisition on the
resulting (idle-empty, full) state reports the capacity error. -/
theorem channelManager_capacity_witness :
    (cmRun (CMState.init 2) [.acquire true, .acquire true]).count ≤ (2 : Int) ∧
    acquireChannel true ⟨[], 2, 2⟩ = (.capacityErr, ⟨[], 2, 2⟩) :=
  channelManager_capacity 2 [.acquire true, .acquire true] ⟨[], 2, 2⟩ true rfl rfl

/-! ## Scoped acquisition (`ChannelManager.get_channel`) and release semantics

`get_channel` is a context manager: it calls `_acquire_channel()`, yields the
channel, and runs `_release_channel(channel)` in a `finally` block, so the
release runs on every exit path of the body, including an exception.  If
`_acquire_channel` itself raises, no channel was handed out and nothing is
released.  A body outcome records whether the body returned or raised, and
the open flag of the channel at release time. -/

inductive BodyOutcome where
  | ok (chOpenAfter : Bool)
  | raises (excId : Nat) (chOpenAfter : Bool)
deriving DecidableEq

/-- `ChannelManager.get_channel` as a state transformer: `.error (e, s)` means
the call raised exception `e` leaving manager state `s` (acquire failures are
tagged `100` for `AMQPConnectionError` and `101` for the capacity
`RuntimeError`). -/
def getChannelScoped (connOpen : Bool) (body : BodyOutcome) (s : CMState) :
    Except (Nat × CMState) CMState :=
  match acquireChannel connOpen s with
  | (.gotReused, s2) =>
      match body with
      | .ok chOpen => .ok (releaseChannel chOpen s2)
      | .raises e chOpen => .error (e, releaseChannel chOpen s2)
  | (.gotNew, s2) =>
      match body with
      | .ok chOpen => .ok (releaseChannel chOpen s2)
      | .raises e chOpen => .error (e, releaseChannel chOpen s2)
  | (.connClosedErr, s2) => .error (100, s2)
  | (.capacityErr, s2) => .error (101, s2)

/-- Validity of an event in a state: a `release` must concern an outstanding
channel, i.e. one counted in `_channel_count` but not sitting in the idle
queue.  Acquisitions and idle-channel deaths are always well-formed. -/
def validEvent (s : CMState) : CMEvent → Bool
  | .release _ => (s.idle.length : Int) < s.count
  | _ => true

def validFrom (s : CMState) : List CMEvent → Bool
  | [] => true
  | e :: rest => validEvent s e && validFrom (cmStep s e) rest

theorem acquireLoop_len_le (connOpen : Bool) (m : Nat) :
    ∀ (idle : List Bool) (count : Int), (idle.length : Int) ≤ count →
      (((acquireLoop connOpen m idle count).2.idle.length : Int)
        ≤ (acquireLoop connOpen m idle count).2.count) := by
  intro idle
  induction idle with
  | nil =>
    intro count h
    simp only [List.length_nil, Nat.cast_zero] at h
    by_cases hc : count < (m : Int)
    · by_cases ho : connOpen = true
      · simp [acquireLoop, hc, ho]; omega
      · simp [acquireLoop, hc, eq_false_of_ne_true ho]; omega
    · simp [acquireLoop, hc]; omega
  | cons b rest ih =>
    intro count h
    simp only [List.length_cons] at h
    by_cases hb : b = true
    · simp [acquireLoop, hb]
      push_cast at *
      omega
    · simp only [acquireLoop, eq_false_of_ne_true hb, if_false]
      exact ih (count - 1) (by push_cast at *; omega)

theorem cmStep_len_le (s : CMState) (e : CMEvent)
    (hv : validEvent s e = true) (h : (s.idle.length : Int) ≤ s.count) :
    ((cmStep s e).idle.length : Int) ≤ (cmStep s e).count := by
  cases e with
  | acquire connOpen =>
    exact acquireLoop_len_le connOpen s.maxChannels s.idle s.count h
  | release chOpen =>
    simp only [validEvent, decide_eq_true_eq] at hv
    unfold cmStep releaseChannel
    by_cases hc : chOpen = true
    · by_cases hq : s.idle.length < s.maxChannels
      · simp [hc, hq]
        omega
      · simp [hc, hq]
        omega
    · simp [eq_false_of_ne_true hc]
      omega
  | idleDies i =>
    unfold cmStep
    simpa using h

theorem cmRun_len_le :
    ∀ (evs : List CMEvent) (s : CMState), validFrom s evs = true →
      (s.idle.length : Int) ≤ s.count →
      ((cmRun s evs).idle.length : Int) ≤ (cmRun s evs).count := by
  intro evs
  induction evs with
  | nil => intro s _ h; exact h
  | cons e rest ih =>
    intro s hv h
    rw [validFrom, Bool.and_eq_true] at hv
    rw [cmRun]
    exact ih (cmStep s e) hv.2 (cmStep_len_le s e hv.1 h)

/-- C6: (i) releasing an outstanding open channel while the count is within
the cap returns it to the idle queue with `_channel_count` unchanged;
(ii) releasing a closed channel decrements `_channel_count` and raises
nothing (`releaseChannel` is a total state transformer — close-time errors
are caught in the source); (iii) in every state reachable by a well-formed
event sequence, outstanding channels exist whenever a release is legal, i.e.
the idle-queue length never exceeds `_channel_count`, so clause (i)'s side
conditions hold at genuine release points; (iv) a channel acquired through
the `get_channel()` context manager is released on every exit path: on a body
exception the resulting manager state is still `releaseChannel` of the
post-acquire state, exactly as on normal return. -/
theorem channelManager_release (s : CMState) :
    ((s.idle.length : Int) < s.count → s.count ≤ (s.maxChannels : Int) →
      releaseChannel true s = { s with idle := s.idle ++ [true] }) ∧
    (releaseChannel false s = { s with count := s.count - 1 }) ∧
    (∀ (maxChannels : Nat) (evs : List CMEvent),
      validFrom (CMState.init maxChannels) evs = true →
      (((cmRun (CMState.init maxChannels) evs).idle.length : Int)
        ≤ (cmRun (CMState.init maxChannels) evs).count)) ∧
    (∀ (connOpen chOpen : Bool) (e : Nat) (r : AcquireResult) (s2 : CMState),
      acquireChannel connOpen s = (r, s2) →
      r = .gotReused ∨ r = .gotNew →
      getChannelScoped connOpen (.raises e chOpen) s
          = .error (e, releaseChannel chOpen s2) ∧
      getChannelScoped connOpen (.ok chOpen) s
          = .ok (releaseChannel chOpen s2)) := by
  refine ⟨?_, ?_, ?_, ?_⟩
  · intro hout hcap
    have hq : s.idle.length < s.maxChannels := by omega
    simp [releaseChannel, hq]
  · simp [releaseChannel]
  · intro maxChannels evs hv
    exact cmRun_len_le evs (CMState.init maxChannels) hv (by simp [CMState.init])
  · intro connOpen chOpen e r s2 hacq hr
    cases hr with
    | inl h => subst h; simp [getChannelScoped, hacq]
    | inr h => subst h; simp [getChannelScoped, hacq]

/-- Witness for C6 at a concrete manager state with one outstanding open
channel (`count = 1`, empty idle queue, `max_channels = 2`): releasing it
returns it to the idle queue with the count unchanged; releasing a closed
channel decrements the count; a two-event acquire/release trace is well
formed and keeps the idle length below the count; and the scoped
body-exception path still releases the channel acquired from
`⟨[true], 1, 2⟩`. -/
theorem channelManager_release_witness :
    releaseChannel true ⟨[], 1, 2⟩ = ⟨[true], 1, 2⟩ ∧
    releaseChannel false ⟨[], 1, 2⟩ = ⟨[], 0, 2⟩ ∧
    (((cmRun (CMState.init 2) [.acquire true, .release true]).idle.length : Int)
      ≤ (cmRun (CMState.init 2) [.acquire true, .release true]).count) ∧
    getChannelScoped true (.raises 7 true) ⟨[true], 1, 2⟩
      = .error (7, releaseChannel true ⟨[], 1, 2⟩) := by
  have h := channelManager_release ⟨[], 1, 2⟩
  have h4 := (channelManager_release ⟨[true], 1, 2⟩).2.2.2 true true 7
    .gotReused ⟨[], 1, 2⟩ (by decide) (Or.inl rfl)
  exact ⟨h.1 (by decide) (by decide), h.2.1,
    h.2.2.1 2 [.acquire true, .release true] (by decide), h4.1⟩

/-! ## `RabbitMQStore` state

The store fields relevant to the lifecycle logic: the private shutdown flag,
the two mode switches fixed at construction, `max_channels`, and the mutable
resources `_connection`, `_channel` and `_channel_manager`.  A connection or
channel handle is an identifier plus its `is_open` flag. -/

structure Handle where
  id : Nat
  isOpen : Bool
deriving DecidableEq

structure StoreState where
  shutdownFlag : Bool
  useConnectionPool : Bool
  useChannelManager : Bool
  maxChannels : Nat
  connection : Option Handle
  channel : Option Handle
  channelManager : Option CMState
deriving DecidableEq

/-- The `channel` deleter (`@channel.deleter`): when `use_channel_manager` is
set it only logs a warning and returns — it touches nothing; otherwise it
closes `_channel` if open (catching close-time errors) and sets it to
`None`. -/
def channelDeleter (s : StoreState) : StoreState :=
  if s.useChannelManager then s
  else { s with channel := none }

/-- The `connection` deleter (`@connection.deleter`): cleans up and drops the
channel manager, closes and drops `_channel`, then returns `_connection` to
the pool (or closes it) and drops it.  Every close/return is wrapped in
`try/except`, so the deleter never raises; the transport-level close is an
external effect. -/
def connectionDeleter (s : StoreState) : StoreState :=
  { s with channelManager := none, channel := none, connection := none }

/-- `RabbitMQStore.shutdown()`: sets the private shutdown flag, stops
consuming on an open channel, cleans up and drops the channel manager,
closes and drops `_channel`, and returns/closes and drops `_connection`.
All teardown steps are wrapped in `try/except`. -/
def shutdownStore (s : StoreState) : StoreState :=
  { s with shutdownFlag := true, channelManager := none, channel := none,
           connection := none }

/-- The `connection` property: if `_connection` is `None` or not open, call
`_create_connection()` (modelled by the fresh open handle `⟨fresh, true⟩`)
and, when `use_channel_manager` is set, replace the channel manager with a
fresh `ChannelManager(connection, max_channels)`.  The returned triple is
(the connection handed back, whether a new connection was created, the
resulting store state).  The property performs no shutdown-flag check. -/
def connectionProp (fresh : Nat) (s : StoreState) : Handle × Bool × StoreState :=
  match s.connection with
  | some c =>
      if c.isOpen then (c, false, s)
      else
        (⟨fresh, true⟩, true,
          { s with connection := some ⟨fresh, true⟩,
                   channelManager :=
                     if s.useChannelManager then some (CMState.init s.maxChannels)
                     else s.channelManager })
  | none =>
      (⟨fresh, true⟩, true,
        { s with connection := some ⟨fresh, true⟩,
                 channelManager :=
                   if s.useChannelManager then some (CMState.init s.maxChannels)
                   else s.channelManager })

/-- C3 counterexample: reading the `connection` property right after
`shutdown()` does not raise any shutdown error — at this concrete store it
silently creates and installs a fresh connection (`didCreate = true`), because
the property never consults the shutdown flag.  The store has no
`ShutdownError` path at all. -/
theorem connection_after_shutdown_cex :
    (connectionProp 2 (shutdownStore
        ⟨false, true, true, 20, some ⟨1, true⟩, none, some (CMState.init 20)⟩)).2.1
      = true ∧
    (connectionProp 2 (shutdownStore
        ⟨false, true, true, 20, some ⟨1, true⟩, none, some (CMState.init 20)⟩)).1
      = ⟨2, true⟩ ∧
    (shutdownStore
        ⟨false, true, true, 20, some ⟨1, true⟩, none, some (CMState.init 20)⟩).shutdownFlag
      = true := by
  decide

/-- C3 amended: `shutdown()` sets the shutdown flag and clears the
connection, channel and channel-manager fields, but a later read of the
`connection` property does not raise — for every store state it creates and
installs a fresh open connection, returning it to the caller. -/
theorem connection_after_shutdown (s : StoreState) (fresh : Nat) :
    (shutdownStore s).shutdownFlag = true ∧
    (shutdownStore s).connection = none ∧
    (shutdownStore s).channel = none ∧
    (shutdownStore s).channelManager = none ∧
    (connectionProp fresh (shutdownStore s)).2.1 = true ∧
    (connectionProp fresh (shutdownStore s)).1 = ⟨fresh, true⟩ := by
  refine ⟨rfl, rfl, rfl, rfl, ?_, ?_⟩ <;> simp [connectionProp, shutdownStore]

/-! ## The consume loop (`RabbitMQStore.start_consuming`)

Each iteration of `while not self.__shutdown` runs `qos` / `consume` /
`channel.start_consuming` and either returns normally or raises; the three
`except` clauses (`AMQPChannelError`, `AMQPConnectionError`, `Exception`)
classify the exception.  Each handler first re-reads the shutdown flag
(`break` without backoff when set), otherwise logs, discards the channel
(`del self.channel`) or the connection (`del self.connection`), sleeps the
current `reconnection_delay` and doubles it capped at
`MAX_CONNECTION_DELAY`.  The `finally` block calls `stop_consuming` inside
its own `try/except` and re-reads the flag once more.  The shutdown flag is
written concurrently by `shutdown()`/`stop_listener`, so each read point is
an oracle value in the iteration environment. -/

inductive ExcClass where
  | channelError
  | connectionError
  | otherError
deriving DecidableEq

structure ConsumeIterEnv where
  raised : Option ExcClass
  shutdownInExcept : Bool
  shutdownInFinally : Bool
  stopConsumingRaises : Bool
deriving DecidableEq

structure ConsumeIterResult where
  uncaught : Option ExcClass
  breakLoop : Bool
  slept : Option Nat
  delayAfter : Nat
deriving DecidableEq

/-- One iteration of the consume loop body, entered with the current
`reconnection_delay`.  `uncaught` is the exception propagating out of the
iteration — `none` on every path because the handlers cover
`AMQPChannelError`, `AMQPConnectionError` and `Exception`, the deleters they
run catch their own errors, and the `finally` wraps `stop_consuming` in
`try/except` (`stopConsumingRaises` is therefore irrelevant to the
result). -/
def consumeIter (s : StoreState) (delay : Nat) (env : ConsumeIterEnv) :
    ConsumeIterResult × StoreState :=
  match env.raised with
  | none => (⟨none, env.shutdownInFinally, none, delay⟩, s)
  | some c =>
      if env.shutdownInExcept then (⟨none, true, none, delay⟩, s)
      else
        (⟨none, env.shutdownInFinally, some delay,
            min (delay * 2) MAX_CONNECTION_DELAY⟩,
          if c = .channelError then channelDeleter s else connectionDeleter s)

/-- One loop iteration as seen from outside: the value the `while` condition
reads, then the iteration body's environment. -/
structure ConsumeStep where
  shutdownAtTop : Bool
  env : ConsumeIterEnv
deriving DecidableEq

inductive LoopResult where
  | returned (sleeps : List Nat) (s : StoreState)
  | stillRunning (sleeps : List Nat) (s : StoreState)
  | escaped (e : ExcClass) (sleeps : List Nat) (s : StoreState)
deriving DecidableEq

/-- `true` exactly when the loop ended by an exception propagating to the
caller. -/
def LoopResult.isEscaped : LoopResult → Bool
  | .escaped _ _ _ => true
  | _ => false

/-- `true` exactly when the loop returned to the caller. -/
def LoopResult.isReturned : LoopResult → Bool
  | .returned _ _ => true
  | _ => false

/-- The `while not self.__shutdown` loop, driven by a finite trace of
iteration observations; `stillRunning` means the trace ended with the loop
still alive.  `acc` accumulates the slept backoff delays. -/
def consumeLoop (s : StoreState) (delay : Nat) (acc : List Nat) :
    List ConsumeStep → LoopResult
  | [] => .stillRunning acc s
  | step :: rest =>
      if step.shutdownAtTop then .returned acc s
      else
        match consumeIter s delay step.env with
        | (r, s2) =>
            match r.uncaught with
            | some e => .escaped e (acc ++ r.slept.toList) s2
            | none =>
                if r.breakLoop then .returned (acc ++ r.slept.toList) s2
                else consumeLoop s2 r.delayAfter (acc ++ r.slept.toList) rest

/-- `RabbitMQStore.start_consuming`: clears the stop flag and enters the loop
with `reconnection_delay = RECONNECTION_DELAY`. -/
def startConsuming (s : StoreState) (trace : List ConsumeStep) : LoopResult :=
  consumeLoop { s with shutdownFlag := false } RECONNECTION_DELAY [] trace

theorem consumeIter_uncaught (s : StoreState) (delay : Nat)
    (env : ConsumeIterEnv) : (consumeIter s delay env).1.uncaught = none := by
  cases h : env.raised with
  | none => simp [consumeIter, h]
  | some c =>
    by_cases hx : env.shutdownInExcept = true
    · simp [consumeIter, h, hx]
    · simp [consumeIter, h, eq_false_of_ne_true hx]

theorem consumeIter_break (s : StoreState) (delay : Nat)
    (env : ConsumeIterEnv)
    (h : (consumeIter s delay env).1.breakLoop = true) :
    env.shutdownInExcept = true ∨ env.shutdownInFinally = true := by
  cases hr : env.raised with
  | none =>
    simp [consumeIter, hr] at h
    exact Or.inr h
  | some c =>
    by_cases hx : env.shutdownInExcept = true
    · exact Or.inl hx
    · simp [consumeIter, hr, eq_false_of_ne_true hx] at h
      exact Or.inr h

theorem consumeLoop_no_escape :
    ∀ (trace : List ConsumeStep) (s : StoreState) (delay : Nat)
      (acc : List Nat), (consumeLoop s delay acc trace).isEscaped = false := by
  intro trace
  induction trace with
  | nil => intro s delay acc; simp [consumeLoop, LoopResult.isEscaped]
  | cons step rest ih =>
    intro s delay acc
    rw [consumeLoop]
    by_cases ht : step.shutdownAtTop = true
    · simp [ht, LoopResult.isEscaped]
    · simp only [eq_false_of_ne_true ht, if_false]
      have hu := consumeIter_uncaught s delay step.env
      match hit : consumeIter s delay step.env with
      | (r, s2) =>
        rw [hit] at hu
        simp only at hu
        simp only [hu]
        by_cases hb : r.breakLoop = true
        · simp [hb, LoopResult.isEscaped]
        · simp only [eq_false_of_ne_true hb, if_false]
          exact ih s2 r.delayAfter (acc ++ r.slept.toList)

theorem consumeLoop_returned_shutdown :
    ∀ (trace : List ConsumeStep) (s : StoreState) (delay : Nat)
      (acc : List Nat) (sleeps : List Nat) (s2 : StoreState),
      consumeLoop s delay acc trace = .returned sleeps s2 →
      ∃ step ∈ trace, step.shutdownAtTop = true ∨
        step.env.shutdownInExcept = true ∨
        step.env.shutdownInFinally = true := by
  intro trace
  induction trace with
  | nil =>
    intro s delay acc sleeps s2 h
    rw [consumeLoop] at h
    exact absurd h (by simp)
  | cons step rest ih =>
    intro s delay acc sleeps s2 h
    rw [consumeLoop] at h
    by_cases ht : step.shutdownAtTop = true
    · exact ⟨step, List.mem_cons_self step rest, Or.inl ht⟩
    · simp only [eq_false_of_ne_true ht, if_false] at h
      have hu := consumeIter_uncaught s delay step.env
      match hit : consumeIter s delay step.env with
      | (r, s3) =>
        rw [hit] at h hu
        simp only at hu
        simp only [hu] at h
        by_cases hb : r.breakLoop = true
        · simp only [hb, if_true] at h
          have := consumeIter_break s delay step.env (by rw [hit]; exact hb)
          exact ⟨step, List.mem_cons_self step rest, Or.inr this⟩
        · simp only [eq_false_of_ne_true hb, if_false] at h
          obtain ⟨st, hmem, hcase⟩ := ih s3 r.delayAfter (acc ++ r.slept.toList) sleeps s2 h
          exact ⟨st, List.mem_cons_of_mem step hmem, hcase⟩

/-- C1: the consume loop of `RabbitMQStore.start_consuming` (i) never lets a
channel-level error, connection-level error or any other exception escape to
the caller — for every trace the loop result is never an escape; (ii) after
an error caught while the shutdown flag is unset, the iteration sleeps the
current reconnection delay and doubles it capped at
`MAX_CONNECTION_DELAY = 32`, and the loop retries; (iii) an error caught
with the shutdown flag already set breaks out without any backoff sleep; and
(iv) the call returns only once some read of the shutdown flag (loop top,
except handler, or finally block) observed it set. -/
theorem startConsuming_resilient :
    (∀ (s : StoreState) (trace : List ConsumeStep),
      (startConsuming s trace).isEscaped = false) ∧
    (∀ (s : StoreState) (delay : Nat) (env : ConsumeIterEnv) (c : ExcClass),
      env.raised = some c → env.shutdownInExcept = false →
      (consumeIter s delay env).1.slept = some delay ∧
      (consumeIter s delay env).1.delayAfter
          = min (delay * 2) MAX_CONNECTION_DELAY) ∧
    (∀ (s : StoreState) (delay : Nat) (env : ConsumeIterEnv) (c : ExcClass),
      env.raised = some c → env.shutdownInExcept = true →
      (consumeIter s delay env).1.breakLoop = true ∧
      (consumeIter s delay env).1.slept = none) ∧
    (∀ (s : StoreState) (trace : List ConsumeStep)
      (sleeps : List Nat) (s2 : StoreState),
      startConsuming s trace = .returned sleeps s2 →
      ∃ step ∈ trace, step.shutdownAtTop = true ∨
        step.env.shutdownInExcept = true ∨
        step.env.shutdownInFinally = true) := by
  refine ⟨?_, ?_, ?_, ?_⟩
  · intro s trace
    exact consumeLoop_no_escape trace _ RECONNECTION_DELAY []
  · intro s delay env c hr hx
    constructor <;> simp [consumeIter, hr, hx]
  · intro s delay env c hr hx
    constructor <;> simp [consumeIter, hr, hx]
  · intro s trace sleeps s2 h
    exact consumeLoop_returned_shutdown trace _ RECONNECTION_DELAY [] sleeps s2 h

/-- Witness for C1: a concrete run — iteration 1 raises a connection error
with the shutdown flag unset (sleeps 1, delay doubles to 2), iteration 2
observes the flag at the loop top and returns.  The loop does not escape,
the return implies a flag observation, and the per-iteration backoff and
no-backoff-under-shutdown facts hold at those concrete environments. -/
theorem startConsuming_resilient_witness :
    (startConsuming ⟨false, true, true, 20, none, none, none⟩
        [⟨false, ⟨some .connectionError, false, false, false⟩⟩,
         ⟨true, ⟨none, false, false, false⟩⟩]).isEscaped = false ∧
    ((consumeIter ⟨false, true, true, 20, none, none, none⟩ 1
        ⟨some .connectionError, false, false, false⟩).1.slept = some 1 ∧
      (consumeIter ⟨false, true, true, 20, none, none, none⟩ 1
        ⟨some .connectionError, false, false, false⟩).1.delayAfter
          = min (1 * 2) MAX_CONNECTION_DELAY) ∧
    ((consumeIter ⟨false, true, true, 20, none, none, none⟩ 4
        ⟨some .channelError, true, false, false⟩).1.breakLoop = true ∧
      (consumeIter ⟨false, true, true, 20, none, none, none⟩ 4
        ⟨some .channelError, true, false, false⟩).1.slept = none) ∧
    (∃ step ∈ ([⟨false, ⟨some .connectionError, false, false, false⟩⟩,
         ⟨true, ⟨none, false, false, false⟩⟩] : List ConsumeStep),
      step.shutdownAtTop = true ∨ step.env.shutdownInExcept = true ∨
        step.env.shutdownInFinally = true) := by
  have h := startConsuming_resilient
  refine ⟨h.1 _ _, h.2.1 _ 1 _ .connectionError rfl rfl,
    h.2.2.1 _ 4 _ .channelError rfl rfl, ?_⟩
  exact h.2.2.2 ⟨false, true, true, 20, none, none, none⟩
    [⟨false, ⟨some .connectionError, false, false, false⟩⟩,
     ⟨true, ⟨none, false, false, false⟩⟩] [1]
    ⟨false, true, true, 20, none, none, none⟩ (by decide)

/-- C10: with `use_channel_manager = true` (the default), the `channel`
deleter is a pure no-op on the store state — it closes no channel, removes
nothing from the `ChannelManager`, and decrements no count; consequently the
channel-error branch of the consume loop, which runs `del self.channel`
before backing off, leaves the store state (manager, counts, handles)
exactly as it was. -/
theorem channelDeleter_frame (s : StoreState) (h : s.useChannelManager = true) :
    channelDeleter s = s ∧
    (∀ (delay : Nat) (env : ConsumeIterEnv),
      env.raised = some .channelError → env.shutdownInExcept = false →
      (consumeIter s delay env).2 = s) := by
  constructor
  · simp [channelDeleter, h]
  · intro delay env hr hx
    simp [consumeIter, hr, hx, channelDeleter, h]

/-- Witness for C10 at a concrete manager-mode store holding a channel
manager with one counted channel: the deleter changes nothing, and neither
does the consume loop's channel-error branch. -/
theorem channelDeleter_frame_witness :
    channelDeleter ⟨false, true, true, 20, some ⟨1, true⟩, none,
        some ⟨[true], 1, 20⟩⟩
      = ⟨false, true, true, 20, some ⟨1, true⟩, none, some ⟨[true], 1, 20⟩⟩ ∧
    (consumeIter ⟨false, true, true, 20, some ⟨1, true⟩, none,
        some ⟨[true], 1, 20⟩⟩ 1
        ⟨some .channelError, false, false, false⟩).2
      = ⟨false, true, true, 20, some ⟨1, true⟩, none, some ⟨[true], 1, 20⟩⟩ := by
  have h := channelDeleter_frame
    ⟨false, true, true, 20, some ⟨1, true⟩, none, some ⟨[true], 1, 20⟩⟩ rfl
  exact ⟨h.1, h.2 1 ⟨some .channelError, false, false, false⟩ rfl rfl⟩

/-! ## `ConnectionPool`

The process-wide pool keeps, per identity key, a FIFO `Queue` of returned
connections (modelled by their `is_open` flags) and a live-connection count,
capped at `_max_connections = 10`.  `get_connection` pops pooled connections
(decrementing the count for each closed one) until it finds an open one;
with the queue exhausted it creates a new connection when the count is below
the cap (a creation failure propagates) and otherwise raises the
`RuntimeError` capacity error. -/

def MAX_POOL_CONNECTIONS : Nat := 10

structure PoolState where
  idle : List Bool
  count : Int
deriving DecidableEq

inductive PoolGetResult where
  | reused
  | fresh
  | capacityError
  | createError
deriving DecidableEq

/-- Pop loop of `ConnectionPool.get_connection` for one identity key. -/
def poolGetLoop (createOk : Bool) : List Bool → Int → PoolGetResult × PoolState
  | [], count =>
      if count < (MAX_POOL_CONNECTIONS : Int) then
        if createOk then (.fresh, ⟨[], count + 1⟩)
        else (.createError, ⟨[], count⟩)
      else (.capacityError, ⟨[], count⟩)
  | b :: rest, count =>
      if b then (.reused, ⟨rest, count⟩)
      else poolGetLoop createOk rest (count - 1)

/-- `ConnectionPool.get_connection` on the pool state for the key. -/
def poolGetConnection (createOk : Bool) (ps : PoolState) :
    PoolGetResult × PoolState :=
  poolGetLoop createOk ps.idle ps.count

inductive CreateConnResult where
  | pooled (r : PoolGetResult)
  | direct (sleeps : List Nat)
deriving DecidableEq

/-- `RabbitMQStore._create_connection` with `use_connection_pool = true`:
the call into the pool sits inside `try/except Exception`, whose handler
logs a warning and falls through to the direct-creation retry loop, so both
the capacity `RuntimeError` and a creation failure are swallowed and
converted into a direct (unpooled) connection; `directFailures` is the
number of failed attempts the direct loop then goes through before its
first success. -/
def createConnection (useConnectionPool createOk : Bool) (directFailures : Nat)
    (ps : PoolState) : CreateConnResult × PoolState :=
  if useConnectionPool then
    match poolGetConnection createOk ps with
    | (.reused, ps2) => (.pooled .reused, ps2)
    | (.fresh, ps2) => (.pooled .fresh, ps2)
    | (.capacityError, ps2) => (.direct (createConnectionSleeps directFailures), ps2)
    | (.createError, ps2) => (.direct (createConnectionSleeps directFailures), ps2)
  else (.direct (createConnectionSleeps directFailures), ps)

/-- C7 counterexample: with the pool at its per-key cap (`count = 10`, no
idle connection), `ConnectionPool.get_connection` does raise the
`RuntimeError` capacity error, but `RabbitMQStore._create_connection`
swallows it and produces a direct unpooled connection instead — the typed
capacity error never reaches the store's caller. -/
theorem pool_capacity_swallowed_cex :
    poolGetConnection true ⟨[], 10⟩ = (.capacityError, ⟨[], 10⟩) ∧
    createConnection true true 0 ⟨[], 10⟩ = (.direct [], ⟨[], 10⟩) := by
  decide

/-- C7 amended: whenever the pool is at capacity for the key (empty idle
queue, count at `_max_connections = 10`), the pool raises its capacity
`RuntimeError`, and `_create_connection` catches that exception internally
and falls back to the direct-creation path (with its own backoff), so no
capacity error propagates to the caller of the store. -/
theorem pool_capacity_swallowed (ps : PoolState) (createOk : Bool)
    (directFailures : Nat) (hidle : ps.idle = [])
    (hfull : ¬ ps.count < (MAX_POOL_CONNECTIONS : Int)) :
    poolGetConnection createOk ps = (.capacityError, ps) ∧
    createConnection true createOk directFailures ps
      = (.direct (createConnectionSleeps directFailures), ps) := by
  obtain ⟨idle, count⟩ := ps
  simp only at hidle hfull
  subst hidle
  have h1 : poolGetConnection createOk ⟨[], count⟩
      = (.capacityError, ⟨[], count⟩) := by
    simp [poolGetConnection, poolGetLoop, hfull]
  refine ⟨h1, ?_⟩
  rw [createConnection]
  simp [h1]

/-- Witness for C7's amended statement at a concrete full pool. -/
theorem pool_capacity_swallowed_witness :
    poolGetConnection false ⟨[], 11⟩ = (.capacityError, ⟨[], 11⟩) ∧
    createConnection true false 2 ⟨[], 11⟩
      = (.direct (createConnectionSleeps 2), ⟨[], 11⟩) :=
  pool_capacity_swallowed ⟨[], 11⟩ false 2 rfl (by decide)

/-! ## `ConnectionPool._get_pool_key`

The key is `str(sorted(key_params.items()))` for the dict holding exactly
`hostname`, `port`, `username` and `virtual_host` (with their defaults) read
out of the parameter dict.  Since those four strings are already in
alphabetical order, the sorted item list is modelled directly; `str` of the
sorted list is injective on it, so the list itself serves as the key.
Parameter values are strings or integers. -/

inductive PValue where
  | str (v : String)
  | int (v : Int)
deriving DecidableEq

/-- A Python parameter dict, as an association list. -/
abbrev ConnParams := List (String × PValue)

/-- `parameters.get(key, default)` lookup (without the default). -/
def getParam (k : String) : ConnParams → Option PValue
  | [] => none
  | (k2, v) :: rest => if k2 = k then some v else getParam k rest

/-- `ConnectionPool._get_pool_key(parameters)`. -/
def getPoolKey (p : ConnParams) : List (String × PValue) :=
  [("hostname", (getParam "hostname" p).getD (.str "localhost")),
   ("port", (getParam "port" p).getD (.int 5672)),
   ("username", (getParam "username" p).getD (.str "guest")),
   ("virtual_host", (getParam "virtual_host" p).getD (.str "/"))]

/-- C9: the pool-identity key reads only `hostname`, `port`, `username` and
`virtual_host` out of the parameter dict: two dicts agreeing on those four
lookups get the same key; in particular two dicts that differ only in the
`password` entry (they agree on every other key) share one pool key and
hence one pool. -/
theorem poolKey_ignores_password (p1 p2 : ConnParams) :
    ((getParam "hostname" p1 = getParam "hostname" p2) →
      (getParam "port" p1 = getParam "port" p2) →
      (getParam "username" p1 = getParam "username" p2) →
      (getParam "virtual_host" p1 = getParam "virtual_host" p2) →
      getPoolKey p1 = getPoolKey p2) ∧
    ((∀ k, k ≠ "password" → getParam k p1 = getParam k p2) →
      getPoolKey p1 = getPoolKey p2) := by
  constructor
  · intro hh hp hu hv
    simp [getPoolKey, hh, hp, hu, hv]
  · intro hall
    have hh := hall "hostname" (by decide)
    have hp := hall "port" (by decide)
    have hu := hall "username" (by decide)
    have hv := hall "virtual_host" (by decide)
    simp [getPoolKey, hh, hp, hu, hv]

/-- Witness for C9: two concrete parameter dicts differing only in the
`password` value get the same pool key. -/
theorem poolKey_ignores_password_witness :
    getPoolKey [("hostname", .str "h"), ("password", .str "secretA")]
      = getPoolKey [("hostname", .str "h"), ("password", .str "secretB")] := by
  have h := poolKey_ignores_password
    [("hostname", .str "h"), ("password", .str "secretA")]
    [("hostname", .str "h"), ("password", .str "secretB")]
  refine h.2 ?_
  intro k hk
  by_cases h1 : "hostname" = k
  · simp [getParam, h1]
  · have h2 : "password" ≠ k := fun he => hk he.symm
    simp [getParam, h1, h2]

/-! ## Named-channel registry (`ConnectionManager`)

Modelled from the spec: the `ConnectionManager` named-channel implementation
is not under `src/` — only its tests (`test_connection_manager_retry.py`,
`test_structure.py`) and examples import it from `use_rabbitmq`.  Spec §4.4
(NamedChannelRegistry): `create_channel(name)` returns the existing channel
for `name` if open, otherwise creates a new one, retrying channel creation
up to a small fixed bound (3 attempts, matching the tests' assertion of 3
`connection.channel()` calls) before propagating the failure;
`get_channel(name)` returns the channel or absent; `close_channel(name)`
closes and removes, returning whether it existed; `list_channels()` returns
the registered names.  The creation oracle maps the attempt number to
whether `connection.channel()` succeeds. -/

structure RegistryState where
  named : List (String × Handle)
  nextId : Nat
deriving DecidableEq

/-- Modelled from the spec: the channel-creation retry bound (3 attempts). -/
def MAX_CHANNEL_CREATE_ATTEMPTS : Nat := 3

/-- Try `connection.channel()` at attempts `a, a+1, ...` while `fuel`
attempts remain; returns the successful attempt number. -/
def tryAttempts (oc : Nat → Bool) : Nat → Nat → Option Nat
  | _, 0 => none
  | a, fuel + 1 => if oc a then some a else tryAttempts oc (a + 1) fuel

/-- Modelled from the spec: up to `MAX_CHANNEL_CREATE_ATTEMPTS` creation
attempts, starting at attempt 1. -/
def tryCreate (oc : Nat → Bool) : Option Nat :=
  tryAttempts oc 1 MAX_CHANNEL_CREATE_ATTEMPTS

def lookupNamed (name : String) : List (String × Handle) → Option Handle
  | [] => none
  | (k, v) :: rest => if k = name then some v else lookupNamed name rest

/-- Replace the binding for `name` (or append it). -/
def upsert (name : String) (h : Handle) :
    List (String × Handle) → List (String × Handle)
  | [] => [(name, h)]
  | (k, v) :: rest =>
      if k = name then (k, h) :: rest else (k, v) :: upsert name h rest

/-- Modelled from the spec: `create_channel(name)` — return the existing
open channel for `name`, else create a fresh one (with retries) and register
it under `name`. -/
def createChannel (oc : Nat → Bool) (name : String) (s : RegistryState) :
    Except String (Handle × RegistryState) :=
  match lookupNamed name s.named with
  | some ch =>
      if ch.isOpen then .ok (ch, s)
      else
        match tryCreate oc with
        | some _ =>
            .ok (⟨s.nextId, true⟩,
              ⟨upsert name ⟨s.nextId, true⟩ s.named, s.nextId + 1⟩)
        | none => .error "AMQPChannelError"
  | none =>
      match tryCreate oc with
      | some _ =>
          .ok (⟨s.nextId, true⟩,
            ⟨upsert name ⟨s.nextId, true⟩ s.named, s.nextId + 1⟩)
      | none => .error "AMQPChannelError"

/-- Modelled from the spec: `get_channel(name)`. -/
def getChannelNamed (name : String) (s : RegistryState) : Option Handle :=
  lookupNamed name s.named

def removeNamed (name : String) :
    List (String × Handle) → List (String × Handle)
  | [] => []
  | (k, v) :: rest => if k = name then rest else (k, v) :: removeNamed name rest

/-- Modelled from the spec: `close_channel(name)` — closes and removes the
named channel, returning whether it existed. -/
def closeChannelNamed (name : String) (s : RegistryState) :
    Bool × RegistryState :=
  match lookupNamed name s.named with
  | some _ => (true, ⟨removeNamed name s.named, s.nextId⟩)
  | none => (false, s)

/-- Modelled from the spec: `list_channels()`. -/
def listChannels (s : RegistryState) : List String := s.named.map Prod.fst

/-- The named channel's transport dies (e.g. the broker closes it): its
open flag drops to `false`, the registry bookkeeping is untouched. -/
def closeExternally (name : String) (s : RegistryState) : RegistryState :=
  ⟨s.named.map (fun p => if p.1 = name then (p.1, ⟨p.2.id, false⟩) else p),
    s.nextId⟩

theorem lookupNamed_mem (name : String) :
    ∀ (l : List (String × Handle)) (v : Handle),
      lookupNamed name l = some v → (name, v) ∈ l := by
  intro l
  induction l with
  | nil => intro v h; exact absurd h (by simp [lookupNamed])
  | cons p rest ih =>
    intro v h
    obtain ⟨k, w⟩ := p
    rw [lookupNamed] at h
    by_cases hk : k = name
    · simp only [hk, if_true, Option.some.injEq] at h
      subst hk
      subst h
      exact List.mem_cons_self _ _
    · simp only [hk, if_false] at h
      exact List.mem_cons_of_mem _ (ih v h)

theorem lookup_upsert (name : String) (h : Handle) :
    ∀ (l : List (String × Handle)),
      lookupNamed name (upsert name h l) = some h := by
  intro l
  induction l with
  | nil => simp [upsert, lookupNamed]
  | cons p rest ih =>
    obtain ⟨k, w⟩ := p
    rw [upsert]
    by_cases hk : k = name
    · simp [hk, lookupNamed]
    · simp only [hk, if_false]
      rw [lookupNamed]
      simp [hk, ih]

theorem upsert_mem (name : String) (h : Handle) :
    ∀ (l : List (String × Handle)) (p : String × Handle),
      p ∈ upsert name h l → p = (name, h) ∨ p ∈ l := by
  intro l
  induction l with
  | nil => intro p hp; simp [upsert] at hp; exact Or.inl hp
  | cons q rest ih =>
    intro p hp
    obtain ⟨k, w⟩ := q
    rw [upsert] at hp
    by_cases hk : k = name
    · simp only [hk, if_true] at hp
      rcases List.mem_cons.mp hp with h1 | h1
      · subst hk; exact Or.inl h1
      · exact Or.inr (List.mem_cons_of_mem _ h1)
    · simp only [hk, if_false] at hp
      rcases List.mem_cons.mp hp with h1 | h1
      · exact Or.inr (h1 ▸ List.mem_cons_self _ _)
      · rcases ih p h1 with h2 | h2
        · exact Or.inl h2
        · exact Or.inr (List.mem_cons_of_mem _ h2)

theorem upsert_name_mem (name : String) (h : Handle) :
    ∀ (l : List (String × Handle)), name ∈ (upsert name h l).map Prod.fst := by
  intro l
  induction l with
  | nil => simp [upsert]
  | cons q rest ih =>
    obtain ⟨k, w⟩ := q
    rw [upsert]
    by_cases hk : k = name
    · simp [hk]
    · simp only [hk, if_false, List.map_cons, List.mem_cons]
      exact Or.inr ih

theorem lookup_closeExternally (name : String) :
    ∀ (l : List (String × Handle)),
      lookupNamed name
          (l.map (fun p => if p.1 = name then (p.1, ⟨p.2.id, false⟩) else p))
        = (lookupNamed name l).map (fun v => ⟨v.id, false⟩) := by
  intro l
  induction l with
  | nil => simp [lookupNamed]
  | cons q rest ih =>
    obtain ⟨k, w⟩ := q
    by_cases hk : k = name
    · subst hk
      rw [List.map_cons]
      have hhead : (if ((k, w) : String × Handle).1 = k
          then ((k, w).1, (⟨(k, w).2.id, false⟩ : Handle)) else (k, w))
            = ((k, ⟨w.id, false⟩) : String × Handle) := by simp
      rw [hhead, lookupNamed, lookupNamed]
      simp
    · simp only [List.map_cons, hk, if_false]
      rw [lookupNamed, lookupNamed]
      simp [hk, ih]

theorem createChannel_ok (oc : Nat → Bool) (name : String) (s : RegistryState)
    (ch : Handle) (s2 : RegistryState)
    (hwf : ∀ p ∈ s.named, p.2.id < s.nextId)
    (h : createChannel oc name s = .ok (ch, s2)) :
    (∀ p ∈ s2.named, p.2.id < s2.nextId) ∧ ch.id < s2.nextId ∧
      lookupNamed name s2.named = some ch ∧ ch.isOpen = true := by
  rw [createChannel] at h
  cases hlk : lookupNamed name s.named with
  | some ch0 =>
    rw [hlk] at h
    by_cases ho : ch0.isOpen = true
    · simp only [ho, if_true, Except.ok.injEq, Prod.mk.injEq] at h
      obtain ⟨rfl, rfl⟩ := h
      have hmem := lookupNamed_mem name s.named ch0 hlk
      exact ⟨hwf, hwf _ hmem, hlk, ho⟩
    · simp only [eq_false_of_ne_true ho, if_false] at h
      cases htc : tryCreate oc with
      | some k =>
        rw [htc] at h
        simp only [Except.ok.injEq, Prod.mk.injEq] at h
        obtain ⟨rfl, rfl⟩ := h
        refine ⟨?_, by simp, lookup_upsert name _ s.named, rfl⟩
        intro p hp
        rcases upsert_mem name ⟨s.nextId, true⟩ s.named p hp with h3 | h3
        · subst h3; simp
        · have := hwf p h3
          simp only
          omega
      | none =>
        rw [htc] at h
        exact absurd h (by simp)
  | none =>
    rw [hlk] at h
    cases htc : tryCreate oc with
    | some k =>
      rw [htc] at h
      simp only [Except.ok.injEq, Prod.mk.injEq] at h
      obtain ⟨rfl, rfl⟩ := h
      refine ⟨?_, by simp, lookup_upsert name _ s.named, rfl⟩
      intro p hp
      rcases upsert_mem name ⟨s.nextId, true⟩ s.named p hp with h3 | h3
      · subst h3; simp
      · have := hwf p h3
        simp only
        omega
    | none =>
      rw [htc] at h
      exact absurd h (by simp)

/-- C8 (modelled from the spec: `ConnectionManager` is absent from `src/`):
the named-channel surface — `create_channel(name)`, `get_channel(name)`,
`close_channel(name)`, `list_channels()` — satisfies: (i) a second
`create_channel(name)` while the stored channel is still open returns the
same channel and leaves the registry unchanged; (ii) after the channel dies
externally, the next `create_channel(name)` returns a new open channel (its
fresh id is distinct from the old channel's) registered under the same name;
(iii) with all of the 3 bounded creation attempts failing, the failure
propagates as an error; (iv) a creation succeeding at the 3rd (last allowed)
attempt still yields the new registered channel; and (v) `close_channel`
reports whether the name existed, `get_channel` is the lookup, and a
successfully created name appears in `list_channels()`. -/
theorem namedChannelRegistry_spec :
    (∀ (oc oc2 : Nat → Bool) (name : String) (s s2 : RegistryState)
      (ch : Handle), (∀ p ∈ s.named, p.2.id < s.nextId) →
      createChannel oc name s = .ok (ch, s2) →
      createChannel oc2 name s2 = .ok (ch, s2)) ∧
    (∀ (oc oc2 : Nat → Bool) (name : String) (s s2 : RegistryState)
      (ch : Handle), (∀ p ∈ s.named, p.2.id < s.nextId) →
      createChannel oc name s = .ok (ch, s2) →
      oc2 1 = true →
      ∃ ch2 s3, createChannel oc2 name (closeExternally name s2) = .ok (ch2, s3) ∧
        ch2.isOpen = true ∧ ch2.id = s2.nextId ∧ ch.id < s2.nextId ∧
        lookupNamed name s3.named = some ch2) ∧
    (∀ (oc : Nat → Bool) (name : String) (s : RegistryState),
      lookupNamed name s.named = none →
      oc 1 = false → oc 2 = false → oc 3 = false →
      createChannel oc name s = .error "AMQPChannelError") ∧
    (∀ (oc : Nat → Bool) (name : String) (s : RegistryState),
      lookupNamed name s.named = none →
      oc 1 = false → oc 2 = false → oc 3 = true →
      createChannel oc name s
        = .ok (⟨s.nextId, true⟩,
            ⟨upsert name ⟨s.nextId, true⟩ s.named, s.nextId + 1⟩)) ∧
    (∀ (name : String) (s : RegistryState),
      (closeChannelNamed name s).1 = (lookupNamed name s.named).isSome ∧
      getChannelNamed name s = lookupNamed name s.named) ∧
    (∀ (oc : Nat → Bool) (name : String) (s s2 : RegistryState) (ch : Handle),
      (∀ p ∈ s.named, p.2.id < s.nextId) →
      createChannel oc name s = .ok (ch, s2) → name ∈ listChannels s2) := by
  refine ⟨?_, ?_, ?_, ?_, ?_, ?_⟩
  · intro oc oc2 name s s2 ch hwf h
    obtain ⟨_, _, hlk2, ho⟩ := createChannel_ok oc name s ch s2 hwf h
    simp [createChannel, hlk2, ho]
  · intro oc oc2 name s s2 ch hwf h hoc
    obtain ⟨hwf2, hid, hlk2, ho⟩ := createChannel_ok oc name s ch s2 hwf h
    have hlk3 : lookupNamed name (closeExternally name s2).named
        = some ⟨ch.id, false⟩ := by
      rw [closeExternally]
      rw [lookup_closeExternally name s2.named, hlk2]
      rfl
    refine ⟨⟨s2.nextId, true⟩,
      ⟨upsert name ⟨s2.nextId, true⟩ (closeExternally name s2).named,
        s2.nextId + 1⟩, ?_, rfl, rfl, hid, ?_⟩
    · rw [createChannel, hlk3]
      have htc : tryCreate oc2 = some 1 := by
        rw [tryCreate, MAX_CHANNEL_CREATE_ATTEMPTS, tryAttempts, hoc]
        rfl
      simp [htc, closeExternally]
    · exact lookup_upsert name _ _
  · intro oc name s hlk h1 h2 h3
    have htc : tryCreate oc = none := by
      rw [tryCreate, MAX_CHANNEL_CREATE_ATTEMPTS]
      rw [tryAttempts, h1]
      rw [if_neg (by simp), tryAttempts, h2, if_neg (by simp), tryAttempts, h3]
      rw [if_neg (by simp), tryAttempts]
    rw [createChannel, hlk, htc]
  · intro oc name s hlk h1 h2 h3
    have htc : tryCreate oc = some 3 := by
      rw [tryCreate, MAX_CHANNEL_CREATE_ATTEMPTS]
      rw [tryAttempts, h1]
      rw [if_neg (by simp), tryAttempts, h2, if_neg (by simp), tryAttempts, h3]
      rfl
    rw [createChannel, hlk, htc]
  · intro name s
    constructor
    · rw [closeChannelNamed]
      cases hlk : lookupNamed name s.named <;> simp [hlk]
    · rfl
  · intro oc name s s2 ch hwf h
    rw [createChannel] at h
    cases hlk : lookupNamed name s.named with
    | some ch0 =>
      rw [hlk] at h
      by_cases ho : ch0.isOpen = true
      · simp only [ho, if_true, Except.ok.injEq, Prod.mk.injEq] at h
        obtain ⟨rfl, rfl⟩ := h
        have hmem := lookupNamed_mem name s.named ch0 hlk
        exact List.mem_map.mpr ⟨(name, ch0), hmem, rfl⟩
      · simp only [eq_false_of_ne_true ho, if_false] at h
        cases htc : tryCreate oc with
        | some k =>
          rw [htc] at h
          simp only [Except.ok.injEq, Prod.mk.injEq] at h
          obtain ⟨rfl, rfl⟩ := h
          exact upsert_name_mem name _ s.named
        | none => rw [htc] at h; exact absurd h (by simp)
    | none =>
      rw [hlk] at h
      cases htc : tryCreate oc with
      | some k =>
        rw [htc] at h
        simp only [Except.ok.injEq, Prod.mk.injEq] at h
        obtain ⟨rfl, rfl⟩ := h
        exact upsert_name_mem name _ s.named
      | none => rw [htc] at h; exact absurd h (by simp)

/-- Witness for C8: a registry holding the open channel `⟨0, true⟩` under
name `x`.  Re-creating `x` returns the same channel and state; after the
channel dies externally the next `create_channel` yields a fresh open
channel with the next id; three failed attempts propagate the error while a
success at attempt 3 registers a channel; `close_channel` reports existence
and `x` is listed. -/
theorem namedChannelRegistry_spec_witness :
    createChannel (fun _ => true) "x" ⟨[("x", ⟨0, true⟩)], 1⟩
      = .ok (⟨0, true⟩, ⟨[("x", ⟨0, true⟩)], 1⟩) ∧
    (∃ ch2 s3, createChannel (fun _ => true) "x"
        (closeExternally "x" ⟨[("x", ⟨0, true⟩)], 1⟩) = .ok (ch2, s3) ∧
      ch2.isOpen = true ∧
      ch2.id = (⟨[("x", ⟨0, true⟩)], 1⟩ : RegistryState).nextId ∧
      (⟨0, true⟩ : Handle).id
        < (⟨[("x", ⟨0, true⟩)], 1⟩ : RegistryState).nextId ∧
      lookupNamed "x" s3.named = some ch2) ∧
    createChannel (fun _ => false) "y" ⟨[], 0⟩ = .error "AMQPChannelError" ∧
    createChannel (fun a => a == 3) "y" ⟨[], 0⟩
      = .ok (⟨0, true⟩, ⟨upsert "y" ⟨0, true⟩ [], 0 + 1⟩) ∧
    ((closeChannelNamed "x" ⟨[("x", ⟨0, true⟩)], 1⟩).1
      = (lookupNamed "x" [("x", ⟨0, true⟩)]).isSome) ∧
    "x" ∈ listChannels ⟨[("x", ⟨0, true⟩)], 1⟩ := by
  have h := namedChannelRegistry_spec
  have hwf : ∀ p ∈ ([("x", (⟨0, true⟩ : Handle))] : List (String × Handle)),
      p.2.id < 1 := by decide
  have hcc : createChannel (fun _ => true) "x" ⟨[("x", ⟨0, true⟩)], 1⟩
      = .ok (⟨0, true⟩, ⟨[("x", ⟨0, true⟩)], 1⟩) := rfl
  exact ⟨h.1 (fun _ => true) (fun _ => true) "x" _ _ _ hwf hcc,
    h.2.1 (fun _ => true) (fun _ => true) "x" _ _ _ hwf hcc rfl,
    h.2.2.1 (fun _ => false) "y" ⟨[], 0⟩ rfl rfl rfl rfl,
    h.2.2.2.1 (fun a => a == 3) "y" ⟨[], 0⟩ rfl rfl rfl rfl,
    (h.2.2.2.2.1 "x" ⟨[("x", ⟨0, true⟩)], 1⟩).1,
    h.2.2.2.2.2 (fun _ => true) "x" _ _ _ hwf hcc⟩
